import Mathlib

/-!
# Verification of the Lotka-Volterra phase-portrait script

Shallow embedding of `src/chapitre_1/plan_phases_proie_predateur/main.py`.
Real arithmetic of the script is modelled exactly over the rationals.
The external numerical routines (scipy root solving and ODE integration)
are modelled as oracles or as a generic explicit Runge-Kutta scheme,
since their code is not part of this repository.
-/

set_option autoImplicit false

namespace LotkaVolterra

/-! ## Module-level model parameters (section 2 of the script) -/

/-- Prey intrinsic growth rate, `r1 = 1.0` in the source. -/
def r1 : ℚ := 1

/-- Predator intrinsic mortality rate, `r2 = 1.0` in the source. -/
def r2 : ℚ := 1

/-- Predation rate, `alpha = 0.5` in the source. -/
def alpha : ℚ := 1/2

/-- Biomass conversion rate, `beta = 0.5` in the source. -/
def beta : ℚ := 1/2

/-- Phase-plane lower bound in X, `XMIN = -0.2`. -/
def XMIN : ℚ := -1/5

/-- Phase-plane upper bound in X, `XMAX = 5`. -/
def XMAX : ℚ := 5

/-- Phase-plane lower bound in Y, `YMIN = -0.2`. -/
def YMIN : ℚ := -1/5

/-- Phase-plane upper bound in Y, `YMAX = 5`. -/
def YMAX : ℚ := 5

/-- Grid discretisation step, `h = 0.05` in the source. -/
def h : ℚ := 1/20

/-- Initial prey population for the plotted trajectory, `X0 = 1.0`. -/
def X0 : ℚ := 1

/-- Initial predator population for the plotted trajectory, `Y0 = 1.0`. -/
def Y0 : ℚ := 1

/-- Output time step for the integration, `dt = 0.01`. -/
def dt : ℚ := 1/100

/-- Maximal integration time, `TMAX = 25.0`. -/
def TMAX : ℚ := 25

/-! ## The vector field (section 3 of the script) -/

/-- The body of the source function `f`, with the module-level parameters
`r1, r2, alpha, beta` made explicit arguments (the source reads them as
globals).  `fGen p q a b X Y = (p*X - a*X*Y, b*X*Y - q*Y)`. -/
def fGen (p q a b X Y : ℚ) : ℚ × ℚ :=
  let X_prime := p * X - a * X * Y
  let Y_prime := b * X * Y - q * Y
  (X_prime, Y_prime)

/-- The source function `f(X, Y)`: the Lotka-Volterra field at the
module-level parameters. -/
def f (X Y : ℚ) : ℚ × ℚ := fGen r1 r2 alpha beta X Y

/-! ## Grid construction (section 3 of the script) -/

/-- Exact-arithmetic model of `numpy.arange(start, stop, step)` for a
positive step: the values `start + k*step` for `k = 0, ..., n-1` where
`n = ceil((stop - start)/step)` (clamped at zero). -/
def arange (start stop step : ℚ) : List ℚ :=
  (List.range (Int.toNat ⌈(stop - start) / step⌉)).map
    (fun k : ℕ => start + (k : ℚ) * step)

/-- The grid-coordinate construction pattern of the source,
`np.arange(lo, hi + step, step)`: a full-step margin is added to the
upper bound. -/
def gridCoords (lo hi step : ℚ) : List ℚ := arange lo (hi + step) step

/-- Modelled from the spec: the spec claims the range generation "must add
a half-step margin" to include the upper bound; this definition follows the
spec words (`np.arange(lo, hi + step/2, step)`), to be compared with
`gridCoords`, the construction actually used by the source. -/
def gridCoordsHalfStep (lo hi step : ℚ) : List ℚ := arange lo (hi + step / 2) step

/-- `X_vals = np.arange(XMIN, XMAX + h, h)` from the source. -/
def X_vals : List ℚ := gridCoords XMIN XMAX h

/-- `Y_vals = np.arange(YMIN, YMAX + h, h)` from the source. -/
def Y_vals : List ℚ := gridCoords YMIN YMAX h

/-- Exact model of `numpy.meshgrid(xs, ys)`: `XX` repeats the row `xs`
once per entry of `ys`, and `YY` holds in row `i` the constant value
`ys[i]` repeated once per entry of `xs`. -/
def meshgrid (xs ys : List ℚ) : List (List ℚ) × List (List ℚ) :=
  (ys.map (fun _ => xs), ys.map (fun y => xs.map (fun _ => y)))

/-- `XX` from the source, first component of the meshgrid. -/
def XX : List (List ℚ) := (meshgrid X_vals Y_vals).1

/-- `YY` from the source, second component of the meshgrid. -/
def YY : List (List ℚ) := (meshgrid X_vals Y_vals).2

/-- Elementwise (numpy-broadcast) evaluation of the field `f` on a pair of
2D coordinate arrays, as in the source line `X_prime, Y_prime = f(XX, YY)`.
Broadcasting a pure arithmetic formula over equal-shaped arrays is
elementwise application. -/
def fGrid (Xs Ys : List (List ℚ)) : List (List ℚ) × List (List ℚ) :=
  (List.zipWith (fun rx ry => List.zipWith (fun x y => (f x y).1) rx ry) Xs Ys,
   List.zipWith (fun rx ry => List.zipWith (fun x y => (f x y).2) rx ry) Xs Ys)

/-- `X_prime` grid array from the source. -/
def X_prime : List (List ℚ) := (fGrid XX YY).1

/-- `Y_prime` grid array from the source. -/
def Y_prime : List (List ℚ) := (fGrid XX YY).2

/-- Optional lookup of entry `(i, j)` of a 2D array. -/
def entry? (M : List (List ℚ)) (i j : ℕ) : Option ℚ :=
  (M[i]?).bind (fun r => r[j]?)

/-! ## Newton equilibria (section 6 of the script) -/

/-- The source function `f_vec(z)`: the same field, packaged to take the
state as a single pair, as required by `scipy.optimize.root`. -/
def f_vec (z : ℚ × ℚ) : ℚ × ℚ :=
  (r1 * z.1 - alpha * z.1 * z.2, beta * z.1 * z.2 - r2 * z.2)

/-- `initial_guess_trivial = [1e-8, 1e-8]` from the source. -/
def initial_guess_trivial : ℚ × ℚ := (1/100000000, 1/100000000)

/-- `initial_guess_nontrivial = [2.0, 2.0]` from the source. -/
def initial_guess_nontrivial : ℚ × ℚ := (2, 2)

/-- Result of one `scipy.optimize.root` call: a convergence flag
(`sol.success`) and the located point (`sol.x`). -/
structure RootResult where
  success : Bool
  x : ℚ × ℚ
deriving DecidableEq, Repr

/-- `E_star_theorique = (r2 / beta, r1 / alpha)` from the source. -/
def E_star_theorique : ℚ × ℚ := (r2 / beta, r1 / alpha)

/-! ## Trajectory integration (section 7 of the script) -/

/-- The source function `f_for_solve_ivp(t, Z)`: wraps `f` into the
time-dependent signature required by `scipy.integrate.solve_ivp`; the
field is autonomous, so `t` is ignored. -/
def f_for_solve_ivp (t : ℚ) (Z : ℚ × ℚ) : ℚ × ℚ := f Z.1 Z.2

/-- `t_eval = np.arange(0, TMAX + dt, dt)` from the source. -/
def t_eval : List ℚ := arange 0 (TMAX + dt) dt

/-- The arguments of the `solve_ivp` call in the source, recorded as data:
the integration method name, the dense-output flag, the time span, the
initial state and the output evaluation times. -/
structure SolveIvpCall where
  methodName : String
  denseOutput : Bool
  tSpan : ℚ × ℚ
  y0 : ℚ × ℚ
  tEval : List ℚ

/-- The `solve_ivp(...)` call of the source: method `DOP853`,
`dense_output=True`, time span `(0, TMAX)`, initial state `[X0, Y0]`,
evaluation times `t_eval`. -/
def sol_call : SolveIvpCall :=
  { methodName := "DOP853"
    denseOutput := true
    tSpan := (0, TMAX)
    y0 := (X0, Y0)
    tEval := t_eval }

/-- Order of the DOP853 integration scheme, as documented by the source
comment on the `solve_ivp` call (Dormand-Prince of order 8 with adaptive
error control). -/
def DOP853_order : ℕ := 8

/-! ## The script pipeline as a function (sections 2-8 of the script)

The script is a linear sequence: parameter asserts, grid construction,
field evaluation, two root solves with a convergence check, trajectory
integration, rendering, and one `savefig`.  The external root solver is an
oracle argument; the result is an error (a raised `AssertionError` or
`RuntimeError`) or the completed output. -/

/-- Data produced by a successful run: the grid coordinates, the two
equilibria found by the root oracle, and the files written by the plotting
calls at the end of the script. -/
structure ScriptOutput where
  grid : List ℚ × List ℚ
  E_trivial : ℚ × ℚ
  E_star : ℚ × ℚ
  savedFiles : List String
deriving DecidableEq, Repr

/-- The files written through `Except`: empty on any error. -/
def savedFilesOf (r : Except String ScriptOutput) : List String :=
  match r with
  | .ok o => o.savedFiles
  | .error _ => []

/-- The script pipeline, parametrised by the four model parameters (the
source hard-codes them as module constants) and by the external root
solver.  The order mirrors the source: the two asserts of section 2 run
first; the grid of section 3 and the root solves of section 6 only happen
afterwards; `savefig` only happens after the convergence check passes. -/
def runScript (p q a b : ℚ) (rootSolve : ℚ × ℚ → RootResult) :
    Except String ScriptOutput :=
  if ¬ (p > 0 ∧ q > 0) then
    .error "AssertionError: r1 and r2 must be strictly positive."
  else if ¬ (a > 0 ∧ b > 0) then
    .error "AssertionError: alpha and beta must be strictly positive."
  else
    let Xs := gridCoords XMIN XMAX h
    let Ys := gridCoords YMIN YMAX h
    let sol_trivial := rootSolve initial_guess_trivial
    let sol_nontriv := rootSolve initial_guess_nontrivial
    if ¬ (sol_trivial.success ∧ sol_nontriv.success) then
      .error "RuntimeError: Newton did not converge."
    else
      .ok { grid := (Xs, Ys)
            E_trivial := sol_trivial.x
            E_star := sol_nontriv.x
            savedFiles := ["plan_phase_proie_predateur.svg"] }

/-! ## Generic explicit Runge-Kutta scheme

`solve_ivp` with `method='DOP853'` runs an explicit Runge-Kutta scheme
(Dormand-Prince, per the source comment); its code lives in scipy, outside
this repository.  It is modelled here as an arbitrary explicit
Runge-Kutta scheme: a list of stages, each with a node `c_i` and a row
`a_i` of coupling coefficients over the earlier stages, and a weight list
`b`; the adaptive step control only chooses the step sizes, which are
universally quantified below. -/

/-- Sum of two states. -/
def addV (v w : ℚ × ℚ) : ℚ × ℚ := (v.1 + w.1, v.2 + w.2)

/-- Scaling of a state. -/
def smulV (c : ℚ) (v : ℚ × ℚ) : ℚ × ℚ := (c * v.1, c * v.2)

/-- Linear combination `sum cs_i * vs_i` of stage values. -/
def dotV (cs : List ℚ) (vs : List (ℚ × ℚ)) : ℚ × ℚ :=
  (List.zipWith (fun c v => smulV c v) cs vs).foldl addV (0, 0)

/-- Builds the stage values of an explicit Runge-Kutta step: each stage
evaluates the field at `y` displaced by a linear combination of the
earlier stage values. -/
def rkStagesAux (g : ℚ → ℚ × ℚ → ℚ × ℚ) (t s : ℚ) (y : ℚ × ℚ) :
    List (ℚ × List ℚ) → List (ℚ × ℚ) → List (ℚ × ℚ)
  | [], ks => ks
  | (c, row) :: rest, ks =>
      rkStagesAux g t s y rest
        (ks ++ [g (t + c * s) (addV y (smulV s (dotV row ks)))])

/-- One explicit Runge-Kutta step of size `s` from `(t, y)`. -/
def rkStep (g : ℚ → ℚ × ℚ → ℚ × ℚ) (tab : List (ℚ × List ℚ)) (b : List ℚ)
    (t s : ℚ) (y : ℚ × ℚ) : ℚ × ℚ :=
  addV y (smulV s (dotV b (rkStagesAux g t s y tab [])))

/-- The orbit of the scheme: the states visited from `y` along the step
sizes `hs` (the adaptive controller chooses `hs`; the statement below
holds for every choice). -/
def rkOrbit (g : ℚ → ℚ × ℚ → ℚ × ℚ) (tab : List (ℚ × List ℚ)) (b : List ℚ) :
    ℚ → List ℚ → ℚ × ℚ → List (ℚ × ℚ)
  | _, [], y => [y]
  | t, s :: rest, y => y :: rkOrbit g tab b (t + s) rest (rkStep g tab b t s y)

/-! ## Helper lemmas -/

theorem dotV_of_all_zero (cs : List ℚ) (vs : List (ℚ × ℚ))
    (hz : ∀ v ∈ vs, v = (0, 0)) : dotV cs vs = (0, 0) := by
  unfold dotV
  have hzip : ∀ v ∈ List.zipWith (fun c v => smulV c v) cs vs, v = ((0 : ℚ), (0 : ℚ)) := by
    intro v hv
    induction cs generalizing vs with
    | nil => simp at hv
    | cons c cs ih =>
      cases vs with
      | nil => simp at hv
      | cons w ws =>
        simp only [List.zipWith_cons_cons, List.mem_cons] at hv
        rcases hv with hv | hv
        · have hw : w = (0, 0) := hz w (by simp)
          subst hv
          simp [smulV, hw]
        · exact ih ws (fun v hv => hz v (List.mem_cons_of_mem _ hv)) hv
  generalize List.zipWith (fun c v => smulV c v) cs vs = l at hzip
  induction l with
  | nil => rfl
  | cons a l ih =>
    have ha : a = (0, 0) := hzip a (by simp)
    simp only [List.foldl_cons]
    have : addV (0, 0) a = (0, 0) := by simp [addV, ha]
    rw [this]
    exact ih (fun v hv => hzip v (List.mem_cons_of_mem _ hv))

theorem addV_zero (y : ℚ × ℚ) : addV y (0, 0) = y := by
  simp [addV]

theorem smulV_zero (s : ℚ) : smulV s (0, 0) = (0, 0) := by
  simp [smulV]

theorem rkStagesAux_fixed (g : ℚ → ℚ × ℚ → ℚ × ℚ) (t s : ℚ) (y : ℚ × ℚ)
    (hg : ∀ τ, g τ y = (0, 0)) :
    ∀ (tab : List (ℚ × List ℚ)) (ks : List (ℚ × ℚ)),
      (∀ v ∈ ks, v = (0, 0)) → ∀ v ∈ rkStagesAux g t s y tab ks, v = (0, 0) := by
  intro tab
  induction tab with
  | nil => intro ks hks v hv; exact hks v hv
  | cons stage rest ih =>
    intro ks hks v hv
    obtain ⟨c, row⟩ := stage
    simp only [rkStagesAux] at hv
    refine ih _ ?_ v hv
    intro w hw
    rcases List.mem_append.1 hw with hw | hw
    · exact hks w hw
    · simp only [List.mem_singleton] at hw
      subst hw
      rw [dotV_of_all_zero row ks hks, smulV_zero, addV_zero]
      exact hg _

theorem rkStep_fixed (g : ℚ → ℚ × ℚ → ℚ × ℚ) (tab : List (ℚ × List ℚ))
    (b : List ℚ) (t s : ℚ) (y : ℚ × ℚ) (hg : ∀ τ, g τ y = (0, 0)) :
    rkStep g tab b t s y = y := by
  unfold rkStep
  rw [dotV_of_all_zero b _ (rkStagesAux_fixed g t s y hg tab [] (by simp)),
    smulV_zero, addV_zero]

theorem rkOrbit_fixed (g : ℚ → ℚ × ℚ → ℚ × ℚ) (tab : List (ℚ × List ℚ))
    (b : List ℚ) (y : ℚ × ℚ) (hg : ∀ τ, g τ y = (0, 0)) :
    ∀ (hs : List ℚ) (t : ℚ),
      rkOrbit g tab b t hs y = List.replicate (hs.length + 1) y := by
  intro hs
  induction hs with
  | nil => intro t; simp [rkOrbit]
  | cons s rest ih =>
    intro t
    simp only [rkOrbit, rkStep_fixed g tab b t s y hg, List.length_cons]
    rw [ih (t + s)]
    rfl

theorem getElem?_zipWith_fn {α β γ : Type} (g : α → β → γ) :
    ∀ (xs : List α) (ys : List β) (i : ℕ),
      (List.zipWith g xs ys)[i]? =
        (xs[i]?).bind (fun a => (ys[i]?).map (g a)) := by
  intro xs
  induction xs with
  | nil => intro ys i; simp
  | cons a xs ih =>
    intro ys i
    cases ys with
    | nil => simp
    | cons b ys =>
      cases i with
      | zero => simp
      | succ i => simpa using ih ys i

theorem arange_length (start stop step : ℚ) :
    (arange start stop step).length = Int.toNat ⌈(stop - start) / step⌉ := by
  simp [arange]

/-! ## Claims -/

/-- C1: the vector-field evaluation function `f` returns exactly the pair
`(r1*X - alpha*X*Y, beta*X*Y - r2*Y)` at the module parameters, for every
pair of inputs. -/
theorem c1_vector_field_formula (X Y : ℚ) :
    f X Y = (r1 * X - alpha * X * Y, beta * X * Y - r2 * Y) := rfl

/-- C2: for all strictly positive parameters, the field vanishes exactly
at the trivial equilibrium `(0, 0)` and at the non-trivial equilibrium
`(r2/beta, r1/alpha)` (exact arithmetic). -/
theorem c2_equilibria_are_zeros (p q a b : ℚ)
    (hp : 0 < p) (hq : 0 < q) (ha : 0 < a) (hb : 0 < b) :
    fGen p q a b 0 0 = (0, 0) ∧ fGen p q a b (q / b) (p / a) = (0, 0) := by
  constructor
  · simp [fGen]
  · have ha' : a ≠ 0 := ne_of_gt ha
    have hb' : b ≠ 0 := ne_of_gt hb
    simp only [fGen, Prod.mk.injEq]
    refine ⟨?_, ?_⟩ <;> (field_simp; try ring)

/-- C2 witness at the module parameters. -/
theorem c2_equilibria_are_zeros_witness :
    (0 : ℚ) < r1 ∧ (0 : ℚ) < r2 ∧ (0 : ℚ) < alpha ∧ (0 : ℚ) < beta ∧
      (fGen r1 r2 alpha beta 0 0 = (0, 0) ∧
        fGen r1 r2 alpha beta (r2 / beta) (r1 / alpha) = (0, 0)) :=
  ⟨by norm_num [r1], by norm_num [r2], by norm_num [alpha], by norm_num [beta],
    c2_equilibria_are_zeros r1 r2 alpha beta (by norm_num [r1]) (by norm_num [r2])
      (by norm_num [alpha]) (by norm_num [beta])⟩

/-- C9: the three derivative functions compute the same field: `f_vec`
agrees with `f` componentwise and `f_for_solve_ivp` agrees with `f`
independently of `t`. -/
theorem c9_three_fields_agree (X Y t : ℚ) :
    f_vec (X, Y) = f X Y ∧ f_for_solve_ivp t (X, Y) = f X Y := ⟨rfl, rfl⟩

/-- C10: the coordinate axes are invariant: with zero prey the prey
derivative is exactly zero, and with zero predators the predator
derivative is exactly zero. -/
theorem c10_axes_invariant (X Y : ℚ) :
    (f 0 Y).1 = 0 ∧ (f X 0).2 = 0 := by
  constructor <;> simp [f, fGen]

/-- C3: if any of the four parameters is non-positive, the pipeline fails
at once with one of the two startup assertion errors, independently of the
root oracle (so before any solver work, and before the grid or field
computations, which only happen in the branch that was not taken), and no
image file is produced. -/
theorem c3_invalid_parameters_fail_fast (p q a b : ℚ)
    (hbad : p ≤ 0 ∨ q ≤ 0 ∨ a ≤ 0 ∨ b ≤ 0) :
    ∀ rootSolve : ℚ × ℚ → RootResult,
      (runScript p q a b rootSolve =
          .error "AssertionError: r1 and r2 must be strictly positive." ∨
        runScript p q a b rootSolve =
          .error "AssertionError: alpha and beta must be strictly positive.") ∧
      savedFilesOf (runScript p q a b rootSolve) = [] := by
  intro rootSolve
  unfold runScript
  by_cases h1 : p > 0 ∧ q > 0
  · have h2 : ¬ (a > 0 ∧ b > 0) := by
      rcases hbad with hb' | hb' | hb' | hb'
      · exact absurd h1.1 (not_lt.mpr hb')
      · exact absurd h1.2 (not_lt.mpr hb')
      · exact fun hc => absurd hc.1 (not_lt.mpr hb')
      · exact fun hc => absurd hc.2 (not_lt.mpr hb')
    simp [h1, h2, savedFilesOf]
  · simp [h1, savedFilesOf]

/-- C3 witness: the pipeline at `alpha = 0` (other parameters as in the
source) aborts with the startup assertion, for a root oracle that would
otherwise succeed. -/
theorem c3_invalid_parameters_fail_fast_witness :
    (r1 ≤ 0 ∨ r2 ≤ 0 ∨ (0 : ℚ) ≤ 0 ∨ beta ≤ 0) ∧
      ((runScript r1 r2 0 beta (fun _ => ⟨true, (0, 0)⟩) =
            .error "AssertionError: r1 and r2 must be strictly positive." ∨
          runScript r1 r2 0 beta (fun _ => ⟨true, (0, 0)⟩) =
            .error "AssertionError: alpha and beta must be strictly positive.") ∧
        savedFilesOf (runScript r1 r2 0 beta (fun _ => ⟨true, (0, 0)⟩)) = []) :=
  ⟨Or.inr (Or.inr (Or.inl le_rfl)),
    c3_invalid_parameters_fail_fast r1 r2 0 beta (Or.inr (Or.inr (Or.inl le_rfl)))
      (fun _ => ⟨true, (0, 0)⟩)⟩

/-- C4: if the root oracle reports non-convergence for either of the two
initial guesses, the run (at the source parameters) aborts with the fatal
convergence error, no image file is produced, and the pipeline consults
the oracle only at the two fixed guesses (hence no retry at any other
point can occur). -/
theorem c4_no_convergence_aborts (rootSolve : ℚ × ℚ → RootResult)
    (hfail : (rootSolve initial_guess_trivial).success = false ∨
      (rootSolve initial_guess_nontrivial).success = false) :
    runScript r1 r2 alpha beta rootSolve =
        .error "RuntimeError: Newton did not converge." ∧
      savedFilesOf (runScript r1 r2 alpha beta rootSolve) = [] ∧
      ∀ other : ℚ × ℚ → RootResult,
        other initial_guess_trivial = rootSolve initial_guess_trivial →
        other initial_guess_nontrivial = rootSolve initial_guess_nontrivial →
        runScript r1 r2 alpha beta other = runScript r1 r2 alpha beta rootSolve := by
  have hpar1 : r1 > 0 ∧ r2 > 0 := by norm_num [r1, r2]
  have hpar2 : alpha > 0 ∧ beta > 0 := by norm_num [alpha, beta]
  have hnc : ¬ ((rootSolve initial_guess_trivial).success = true ∧
      (rootSolve initial_guess_nontrivial).success = true) := by
    rcases hfail with hf | hf <;> simp [hf]
  refine ⟨?_, ?_, ?_⟩
  · unfold runScript
    rw [if_neg (not_not_intro hpar1), if_neg (not_not_intro hpar2),
      if_pos hnc]
  · unfold runScript
    rw [if_neg (not_not_intro hpar1), if_neg (not_not_intro hpar2),
      if_pos hnc]
    rfl
  · intro other h1 h2
    unfold runScript
    rw [h1, h2]

/-- C4 witness at a concrete always-failing oracle. -/
theorem c4_no_convergence_aborts_witness :
    (((fun _ => (⟨false, (0, 0)⟩ : RootResult)) initial_guess_trivial).success = false ∨
        ((fun _ => (⟨false, (0, 0)⟩ : RootResult)) initial_guess_nontrivial).success = false) ∧
      (runScript r1 r2 alpha beta (fun _ => ⟨false, (0, 0)⟩) =
          .error "RuntimeError: Newton did not converge." ∧
        savedFilesOf (runScript r1 r2 alpha beta (fun _ => ⟨false, (0, 0)⟩)) = [] ∧
        ∀ other : ℚ × ℚ → RootResult,
          other initial_guess_trivial =
            (fun _ => (⟨false, (0, 0)⟩ : RootResult)) initial_guess_trivial →
          other initial_guess_nontrivial =
            (fun _ => (⟨false, (0, 0)⟩ : RootResult)) initial_guess_nontrivial →
          runScript r1 r2 alpha beta other =
            runScript r1 r2 alpha beta (fun _ => ⟨false, (0, 0)⟩)) :=
  ⟨Or.inl rfl, c4_no_convergence_aborts (fun _ => ⟨false, (0, 0)⟩) (Or.inl rfl)⟩

/-- C5 counterexample: the claim says the generation adds a half-step
margin; at bounds `[0, 1]` with step `2/5` the half-step construction
differs from the one the source uses, and it keeps every coordinate
strictly below the upper bound, contradicting the inclusive-upper-bound
property asserted by the same claim. -/
theorem c5_half_step_counterexample :
    gridCoordsHalfStep 0 1 (2/5) ≠ gridCoords 0 1 (2/5) ∧
      ∀ x ∈ gridCoordsHalfStep 0 1 (2/5), x < 1 := by
  have hhalf : gridCoordsHalfStep 0 1 (2/5) = [0, 2/5, 4/5] := by
    unfold gridCoordsHalfStep arange
    have hc : ⌈((1 + 2/5/2 - 0) : ℚ) / (2/5)⌉ = 3 := by
      rw [Int.ceil_eq_iff]
      norm_num
    rw [hc]
    simp [List.range_succ]
    norm_num
  have hfull : gridCoords 0 1 (2/5) = [0, 2/5, 4/5, 6/5] := by
    unfold gridCoords arange
    have hc : ⌈((1 + 2/5 - 0) : ℚ) / (2/5)⌉ = 4 := by
      rw [Int.ceil_eq_iff]
      norm_num
    rw [hc]
    simp [List.range_succ]
    norm_num
  rw [hhalf, hfull]
  constructor
  · intro heq
    have hlen := congrArg List.length heq
    simp at hlen
  · intro x hx
    simp only [List.mem_cons, List.not_mem_nil, or_false] at hx
    rcases hx with hx | hx | hx <;> (subst hx; norm_num)

/-- C5 (amended): the source generation adds a full-step margin
(`arange(lo, hi + step, step)`); for step > 0 and ordered bounds, both
bounds are covered (the lower bound is a coordinate and some coordinate
is ≥ the upper bound) and the length is `floor((hi-lo)/step) + 1`,
within +1. -/
theorem c5_grid_covers_bounds (lo hi step : ℚ) (hstep : 0 < step) (hle : lo ≤ hi) :
    gridCoords lo hi step = arange lo (hi + step) step ∧
      lo ∈ gridCoords lo hi step ∧
      (∃ x ∈ gridCoords lo hi step, hi ≤ x) ∧
      ((gridCoords lo hi step).length = Int.toNat ⌊(hi - lo) / step⌋ + 1 ∨
        (gridCoords lo hi step).length = Int.toNat ⌊(hi - lo) / step⌋ + 2) := by
  have hstep' : step ≠ 0 := ne_of_gt hstep
  set q : ℚ := (hi - lo) / step with hq
  have hq0 : 0 ≤ q := div_nonneg (by linarith) (le_of_lt hstep)
  have hceil0 : 0 ≤ ⌈q⌉ := Int.ceil_nonneg hq0
  have hdiv : (hi + step - lo) / step = q + 1 := by
    have hrw : hi + step - lo = (hi - lo) + step := by ring
    rw [hrw, add_div, div_self hstep', hq]
  have hn : Int.toNat ⌈(hi + step - lo) / step⌉ = Int.toNat ⌈q⌉ + 1 := by
    rw [hdiv, Int.ceil_add_one]
    omega
  refine ⟨rfl, ?_, ?_, ?_⟩
  · show lo ∈ arange lo (hi + step) step
    simp only [arange, List.mem_map, List.mem_range]
    refine ⟨0, ?_, by push_cast; ring⟩
    rw [hn]; omega
  · refine ⟨lo + ((Int.toNat ⌈q⌉ : ℕ) : ℚ) * step, ?_, ?_⟩
    · show _ ∈ arange lo (hi + step) step
      simp only [arange, List.mem_map, List.mem_range]
      exact ⟨Int.toNat ⌈q⌉, by rw [hn]; omega, rfl⟩
    · have hcast : ((Int.toNat ⌈q⌉ : ℕ) : ℚ) = ((⌈q⌉ : ℤ) : ℚ) := by
        have := Int.toNat_of_nonneg hceil0
        exact_mod_cast congrArg (fun z : ℤ => (z : ℚ)) this
      have hle2 : q * step ≤ ((⌈q⌉ : ℤ) : ℚ) * step :=
        mul_le_mul_of_nonneg_right (Int.le_ceil q) (le_of_lt hstep)
      have hqs : q * step = hi - lo := div_mul_cancel₀ _ hstep'
      rw [hcast]
      linarith
  · have hlen : (gridCoords lo hi step).length = Int.toNat ⌈(hi + step - lo) / step⌉ := by
      simp [gridCoords, arange]
    rw [hlen, hn]
    have h1 := Int.floor_le_ceil q
    have h2 := Int.ceil_le_floor_add_one q
    have hfl0 : 0 ≤ ⌊q⌋ := Int.floor_nonneg.mpr hq0
    omega

/-- C5 witness at the concrete sampler input of the spec,
`(Xmin, Xmax, step) = (0, 5, 1/20)`. -/
theorem c5_grid_covers_bounds_witness :
    (0 : ℚ) < 1/20 ∧ (0 : ℚ) ≤ 5 ∧
      (gridCoords 0 5 (1/20) = arange 0 (5 + 1/20) (1/20) ∧
        (0 : ℚ) ∈ gridCoords 0 5 (1/20) ∧
        (∃ x ∈ gridCoords 0 5 (1/20), (5 : ℚ) ≤ x) ∧
        ((gridCoords 0 5 (1/20)).length = Int.toNat ⌊((5 : ℚ) - 0) / (1/20)⌋ + 1 ∨
          (gridCoords 0 5 (1/20)).length = Int.toNat ⌊((5 : ℚ) - 0) / (1/20)⌋ + 2)) :=
  ⟨by norm_num, by norm_num,
    c5_grid_covers_bounds 0 5 (1/20) (by norm_num) (by norm_num)⟩

/-- C6: the trajectory integration call takes the initial state
`(X0, Y0)` and the time span `[0, TMAX]`, uses the DOP853 method (order 8,
hence at least 5, per the scheme recorded from the source comment) with
dense output enabled, and its output times are exactly the uniform grid
`k * dt` for `k = 0 .. floor(TMAX/dt)`. -/
theorem c6_solver_configuration :
    sol_call.methodName = "DOP853" ∧
      5 ≤ DOP853_order ∧
      sol_call.denseOutput = true ∧
      sol_call.tSpan = (0, TMAX) ∧
      sol_call.y0 = (X0, Y0) ∧
      sol_call.tEval =
        (List.range (Int.toNat ⌊TMAX / dt⌋ + 1)).map (fun k : ℕ => (k : ℚ) * dt) := by
  refine ⟨rfl, by norm_num [DOP853_order], rfl, rfl, rfl, ?_⟩
  show t_eval = _
  unfold t_eval arange
  have hcount : Int.toNat ⌈(TMAX + dt - 0) / dt⌉ = Int.toNat ⌊TMAX / dt⌋ + 1 := by
    have e1 : (TMAX + dt - 0) / dt = (2501 : ℚ) := by norm_num [TMAX, dt]
    have e2 : TMAX / dt = (2500 : ℚ) := by norm_num [TMAX, dt]
    have e3 : ⌈(2501 : ℚ)⌉ = 2501 := by
      rw [Int.ceil_eq_iff]
      norm_num
    have e4 : ⌊(2500 : ℚ)⌋ = 2500 := by
      rw [Int.floor_eq_iff]
      norm_num
    rw [e1, e2, e3, e4]
    rfl
  rw [hcount]
  have hfun : (fun k : ℕ => (0 : ℚ) + (k : ℚ) * dt) = fun k : ℕ => (k : ℚ) * dt :=
    funext fun k => zero_add _
  rw [hfun]

/-- C7: broadcast-array evaluation of the field agrees with scalar
evaluation: wherever both coordinate arrays have an entry at `(i, j)`, the
two result arrays hold at `(i, j)` exactly the two components of `f`
applied to those scalar entries. -/
theorem c7_broadcast_matches_scalar (Xs Ys : List (List ℚ)) (i j : ℕ) (x y : ℚ)
    (hx : entry? Xs i j = some x) (hy : entry? Ys i j = some y) :
    entry? (fGrid Xs Ys).1 i j = some (f x y).1 ∧
      entry? (fGrid Xs Ys).2 i j = some (f x y).2 := by
  obtain ⟨rx, hrx, hrxj⟩ : ∃ rx, Xs[i]? = some rx ∧ rx[j]? = some x := by
    rcases h : Xs[i]? with _ | rx
    · rw [entry?, h] at hx; simp at hx
    · rw [entry?, h] at hx; exact ⟨rx, rfl, hx⟩
  obtain ⟨ry, hry, hryj⟩ : ∃ ry, Ys[i]? = some ry ∧ ry[j]? = some y := by
    rcases h : Ys[i]? with _ | ry
    · rw [entry?, h] at hy; simp at hy
    · rw [entry?, h] at hy; exact ⟨ry, rfl, hy⟩
  constructor
  · show entry? (List.zipWith _ Xs Ys) i j = _
    rw [entry?, getElem?_zipWith_fn, hrx, hry]
    simp [getElem?_zipWith_fn, hrxj, hryj]
  · show entry? (List.zipWith _ Xs Ys) i j = _
    rw [entry?, getElem?_zipWith_fn, hrx, hry]
    simp [getElem?_zipWith_fn, hrxj, hryj]

/-- C7 witness on a concrete 2x2 grid at entry (1, 0). -/
theorem c7_broadcast_matches_scalar_witness :
    entry? [[1, 2], [3, 4]] 1 0 = some (3 : ℚ) ∧
      entry? [[5, 6], [7, 8]] 1 0 = some (7 : ℚ) ∧
      (entry? (fGrid [[1, 2], [3, 4]] [[5, 6], [7, 8]]).1 1 0 = some (f 3 7).1 ∧
        entry? (fGrid [[1, 2], [3, 4]] [[5, 6], [7, 8]]).2 1 0 = some (f 3 7).2) :=
  ⟨rfl, rfl,
    c7_broadcast_matches_scalar [[1, 2], [3, 4]] [[5, 6], [7, 8]] 1 0 3 7 rfl rfl⟩

/-- C8: with all four parameters equal to 1 and the source initial
condition `(X0, Y0) = (1, 1)`, the point `(X0, Y0)` is the non-trivial
equilibrium `(r2/beta, r1/alpha) = (1/1, 1/1)`, the field vanishes there,
and the integrated trajectory stays at `(X0, Y0)`: every explicit
Runge-Kutta scheme, from any time, with any (adaptively chosen) step
sizes, visits only `(X0, Y0)`, and every dense-output sample (one step
with arbitrary interpolation weights) equals `(X0, Y0)`. -/
theorem c8_stationary_trajectory :
    ((1 : ℚ) / 1, (1 : ℚ) / 1) = (X0, Y0) ∧
      fGen 1 1 1 1 X0 Y0 = (0, 0) ∧
      (∀ (tab : List (ℚ × List ℚ)) (b : List ℚ) (t0 : ℚ) (hs : List ℚ),
        rkOrbit (fun _ Z => fGen 1 1 1 1 Z.1 Z.2) tab b t0 hs (X0, Y0) =
          List.replicate (hs.length + 1) (X0, Y0)) ∧
      (∀ (tab : List (ℚ × List ℚ)) (w : List ℚ) (t s : ℚ),
        rkStep (fun _ Z => fGen 1 1 1 1 Z.1 Z.2) tab w t s (X0, Y0) = (X0, Y0)) := by
  have hzero : ∀ τ : ℚ, (fun _ Z => fGen 1 1 1 1 Z.1 Z.2) τ (X0, Y0) = (0, 0) := by
    intro τ
    norm_num [fGen, X0, Y0]
  refine ⟨by norm_num [X0, Y0], by norm_num [fGen, X0, Y0], ?_, ?_⟩
  · intro tab b t0 hs
    exact rkOrbit_fixed _ tab b (X0, Y0) hzero hs t0
  · intro tab w t s
    exact rkStep_fixed _ tab w t s (X0, Y0) hzero

end LotkaVolterra
